import Mathlib

/-!
Shallow embedding of `src/core/process.js` (the process-supervision and
resource-monitoring core of the jsenco benchmark harness), and proofs about
its behaviour.

JavaScript numbers are modelled as rationals (`ℚ`); the only numeric
operations the core performs on them are addition, subtraction, comparison
and `Math.max`/`Math.min`, for which `ℚ` is a faithful sublanguage.
`Math.max()`/`Math.min()` of an empty argument list yield `-Infinity` /
`+Infinity`, modelled by the dedicated type `JsNum`.

External collaborators that live in `src/core/utils.js` (a file of this
repository that is not part of the sources under review) are taken as
parameters of the embedded functions: the liveness predicate
`checkIfProcessExists`, the verdict predicate `checkIfProcessFinishedCorrectly`,
the output parser `parseTestOutput`, the stats reducer `processPidusageStats`
(its result pair is passed directly) and the kill primitive (a pure marker,
since the embedding tracks the decision to kill, not the OS side effect).
-/

/-- A JavaScript number as produced by `Math.max`/`Math.min`: either a finite
value or one of the two infinities that arise from empty argument lists. -/
inductive JsNum
  | num (q : ℚ)
  | negInf
  | posInf
deriving DecidableEq

/-- The fields of a Node.js `ChildProcess` handle that
`src/core/process.js` reads: the pid, and the `exitCode` / `signalCode`
properties consulted when building a failure status. -/
structure ChildProcess where
  pid : Nat
  exitCode : Option Int
  signalCode : Option String
deriving DecidableEq

/-- The Managed Process record built by `createProcess`
(src/core/process.js lines 34-42): script basename, engine name, handle,
start time, the two sample sequences and the timeout flag. -/
structure Process where
  script : String
  engine : String
  childProcess : ChildProcess
  startTime : ℚ
  cpuVals : List ℚ
  memVals : List ℚ
  isTimedOut : Bool
deriving DecidableEq

/-- The stats block of a Test Result Record
(src/core/process.js lines 123-129 and 140-146). -/
structure Stats where
  cpus : List ℚ
  mems : List ℚ
  maxCPU : JsNum
  minCPU : JsNum
  maxMem : JsNum
  minMem : JsNum
deriving DecidableEq

/-- A Test Result Record as pushed onto `engine.testsPassed` or
`engine.testsFailed`. -/
structure TestRecord where
  script : String
  stdout : String
  stderr : String
  status : String
  extime : ℚ
  stats : Stats
deriving DecidableEq

/-- The engine object (`EnTest.EngineInfo`) as used by the core: name,
executable path, the pending-script queue and the two result lists. -/
structure EngineInfo where
  name : String
  path : String
  testsQueue : List String
  testsPassed : List TestRecord
  testsFailed : List TestRecord
deriving DecidableEq

/-- The uniform end-result descriptor handed to `handleExecFileResult`:
`processEndResult` of the `close` handler (code/signal) or of the `error`
handler (error only); `null` is modelled by `Option.none` at the call site. -/
structure EndResult where
  code : Option Int
  signal : Option String
  error : Option String
deriving DecidableEq

/-- JavaScript `Array.prototype.pop`: removes and returns the LAST element,
or `undefined` (here `none`) on an empty array. -/
def jsPop (l : List α) : Option (α × List α) :=
  match l.getLast? with
  | none => none
  | some x => some (x, l.dropLast)

/-- Index of the first element of the registry whose `childProcess.pid`
matches, if any. -/
def findIdxPidAux (pid : Nat) : List Process → Option Nat
  | [] => none
  | cp :: rest =>
    if cp.childProcess.pid == pid then some 0
    else (findIdxPidAux pid rest).map (· + 1)

/-- JavaScript `Array.prototype.findIndex`: index of the first element whose
`childProcess.pid` matches, `-1` when there is none
(src/core/process.js line 90). -/
def jsFindIndexPid (registry : List Process) (pid : Nat) : Int :=
  match findIdxPidAux pid registry with
  | some i => (i : Int)
  | none => -1

/-- JavaScript `Array.prototype.splice(idx, 1)`: a negative index counts from
the end (so `splice(-1, 1)` removes the last element), an index past the end
removes nothing (src/core/process.js line 91). -/
def jsSplice1 (l : List α) (idx : Int) : List α :=
  let len : Int := l.length
  let start : Int := if idx < 0 then max (len + idx) 0 else min idx len
  l.take start.toNat ++ l.drop (start.toNat + 1)

/-- `Math.max.apply(null, l)`: `-Infinity` on an empty list, otherwise the
greatest element. -/
def jsMax : List ℚ → JsNum
  | [] => JsNum.negInf
  | x :: xs => JsNum.num (xs.foldl max x)

/-- `Math.min.apply(null, l)`: `+Infinity` on an empty list, otherwise the
least element. -/
def jsMin : List ℚ → JsNum
  | [] => JsNum.posInf
  | x :: xs => JsNum.num (xs.foldl min x)

/-- `stdout.replace(/\n/g, ' ')` (src/core/process.js line 134). -/
def flattenNewlines (s : String) : String :=
  String.map (fun c => if c = '\n' then ' ' else c) s

/-- `path.basename`: the component after the last slash
(src/core/process.js line 35). -/
def basename (s : String) : String :=
  match (s.splitOn "/").getLast? with
  | some t => t
  | none => s

/-- Rendering of `process.childProcess['exitCode'] || process.childProcess['signalCode']`
inside a template literal (src/core/process.js line 138): `||` takes the
exit code when it is truthy (non-null and non-zero), otherwise the signal
code; `null` renders as the string "null". -/
def statusCodeOrSignal (cp : ChildProcess) : String :=
  match cp.exitCode with
  | some c =>
    if c ≠ 0 then toString c
    else match cp.signalCode with
      | some s => s
      | none => "null"
  | none =>
    match cp.signalCode with
    | some s => s
    | none => "null"

/-- Modelled from the spec: `checkIfProcessFinishedCorrectly` lives in
`src/core/utils.js`, which is not among the sources under review. Per the
spec it is the "Verdict predicate: given a process handle, returns whether
its exit state qualifies as a clean/successful termination"; the exit state
of the handle is its `exitCode`/`signalCode` pair, so a clean termination is
modelled as a plain code-0 exit with no terminating signal. It sees only the
handle, never the Managed Process wrapper, hence never the `isTimedOut`
flag. -/
def checkIfProcessFinishedCorrectly (cp : ChildProcess) : Bool :=
  cp.exitCode == some 0 && cp.signalCode == none

/-- The stats block built by `handleExecFileResult` in both branches
(src/core/process.js lines 123-129 and 140-146). -/
def mkStats (cpus mems : List ℚ) : Stats :=
  { cpus := cpus
    mems := mems
    maxCPU := jsMax cpus
    minCPU := jsMin cpus
    maxMem := jsMax mems
    minMem := jsMin mems }

/-- `createProcess` (src/core/process.js lines 26-76), state part: builds the
Managed Process for `engine` and `script` with empty sample sequences and a
cleared timeout flag, and pushes it at the END of the global `PROCESSES`
array. The fresh OS handle and the spawn time are parameters. Event wiring
is modelled by `endResultOfEvent`/`dispatchEvent` below. -/
def createProcess (engine : EngineInfo) (script : String) (cp : ChildProcess)
    (now : ℚ) (registry : List Process) : Process × List Process :=
  let p : Process :=
    { script := basename script
      engine := engine.name
      childProcess := cp
      startTime := now
      cpuVals := []
      memVals := []
      isTimedOut := false }
  (p, registry ++ [p])

/-- A terminal event of the child process: `close` with its
(code, signal) pair, or `error` with an `Error` value (Node.js `Error`
objects are always truthy, so the `if(err)` guard on line 66 always
passes). -/
inductive ChildEvent
  | close (code : Option Int) (signal : Option String)
  | error (err : String)
deriving DecidableEq

/-- The uniform end-result value each event handler passes to
`handleExecFileResult` (src/core/process.js lines 53-73): the `close`
handler passes `null` exactly on a code-0 exit and otherwise the
descriptor `{code: code ? code : null, signal}` (`0` and `null` are falsy);
the `error` handler passes `{code: null, error: err}`. -/
def endResultOfEvent : ChildEvent → Option EndResult
  | ChildEvent.close code signal =>
    if code = some 0 then none
    else some
      { code := code.bind (fun c => if c = 0 then none else some c)
        signal := signal
        error := none }
  | ChildEvent.error e => some { code := none, signal := none, error := some e }

/-- What the completion handler does after recording: invoke the
engine-completion callback, or spawn the next script popped from the
queue. -/
inductive AdvanceAction
  | callbackInvoked
  | spawned (script : String)
deriving DecidableEq

/-- The state produced by one run of the completion handler. -/
structure HandlerResult where
  engine : EngineInfo
  registry : List Process
  action : AdvanceAction
deriving DecidableEq

/-- The record pushed onto `engine.testsPassed`
(src/core/process.js lines 117-130): status "success", stdout run through
the external parser, stats from the popped process's own sample
sequences. -/
def successRecord (pto : String → String → String → String)
    (engineName script stdout stderr : String) (now : ℚ) (p : Process) :
    TestRecord :=
  { script := script
    stdout := pto engineName script stdout
    stderr := stderr
    status := "success"
    extime := now - p.startTime
    stats := mkStats p.cpuVals p.memVals }

/-- The record pushed onto `engine.testsFailed`
(src/core/process.js lines 132-147): status "timeout" when the Monitor set
the flag, otherwise "error " followed by the `||` of the handle's exit and
signal codes; stdout flattened. -/
def failureRecord (script stdout stderr : String) (now : ℚ) (p : Process) :
    TestRecord :=
  { script := script
    stdout := flattenNewlines stdout
    stderr := stderr
    status :=
      if p.isTimedOut then "timeout"
      else "error " ++ statusCodeOrSignal p.childProcess
    extime := now - p.startTime
    stats := mkStats p.cpuVals p.memVals }

/-- The queue advance at the end of the completion handler
(src/core/process.js lines 149-153): on an empty queue invoke the
engine-completion callback, otherwise pop the LAST queued script
(JavaScript `Array.pop`) and spawn it. -/
def queueAdvance (engine : EngineInfo) : EngineInfo × AdvanceAction :=
  match jsPop engine.testsQueue with
  | none => (engine, AdvanceAction.callbackInvoked)
  | some (s, q') => ({ engine with testsQueue := q' }, AdvanceAction.spawned s)

/-- `handleExecFileResult` (src/core/process.js lines 113-154).
`PROCESSES.pop()` removes the most recently registered process GLOBALLY,
whatever engine it belongs to; on an empty registry `pop` yields
`undefined` and the immediate `process.cpuVals` access throws, modelled by
`none`. The verdict predicate `fc` and output parser `pto`
(`checkIfProcessFinishedCorrectly` / `parseTestOutput` from utils.js) and
the current time are parameters. The queue advance does not register the
spawned process itself (see `createProcess`). -/
def handleExecFileResult (fc : ChildProcess → Bool)
    (pto : String → String → String → String) (now : ℚ)
    (engine : EngineInfo) (script : String) (err : Option EndResult)
    (stdout stderr : String) (registry : List Process) :
    Option HandlerResult :=
  match jsPop registry with
  | none => none
  | some (p, registry') =>
    let engine' : EngineInfo :=
      if err.isNone && fc p.childProcess then
        { engine with
            testsPassed := engine.testsPassed ++
              [successRecord pto engine.name script stdout stderr now p] }
      else
        { engine with
            testsFailed := engine.testsFailed ++
              [failureRecord script stdout stderr now p] }
    some ⟨(queueAdvance engine').1, registry', (queueAdvance engine').2⟩

/-- Dispatch of one terminal event into the completion handler, as wired by
`createProcess` (src/core/process.js lines 53-73). -/
def dispatchEvent (fc : ChildProcess → Bool)
    (pto : String → String → String → String) (now : ℚ)
    (engine : EngineInfo) (script : String) (stdout stderr : String)
    (registry : List Process) (ev : ChildEvent) : Option HandlerResult :=
  handleExecFileResult fc pto now engine script (endResultOfEvent ev)
    stdout stderr registry

/-- Dispatch of a sequence of terminal events for the same engine and
script, threading the engine and registry state; a crash (`none`)
propagates. Spawns triggered on the way are recorded in the action but, as
in `dispatchEvent`, registration of the spawned process is not replayed
(the runs of interest here have an empty queue). -/
def dispatchEvents (fc : ChildProcess → Bool)
    (pto : String → String → String → String) (now : ℚ) (script : String)
    (stdout stderr : String) :
    List ChildEvent → EngineInfo → List Process →
    Option (EngineInfo × List Process)
  | [], engine, registry => some (engine, registry)
  | ev :: evs, engine, registry =>
    match dispatchEvent fc pto now engine script stdout stderr registry ev with
    | none => none
    | some hr => dispatchEvents fc pto now script stdout stderr evs hr.engine hr.registry

/-- What the Resource Monitor decides for one registered process on one
tick: do nothing, issue a resource-usage query, or kill it as timed out. -/
inductive TickAction
  | skip
  | query
  | killTimeout
deriving DecidableEq

/-- The per-process body of `startProcessesMonitoring` (src/core/process.js
lines 163-177): if the liveness predicate fails, nothing happens; otherwise
a usage query is issued when `now - startTime < TIMEOUT`, and on the other
branch the process is killed and its `isTimedOut` flag set. -/
def monitorTick (alive : ChildProcess → Bool) (now TIMEOUT : ℚ)
    (cp : Process) : TickAction × Process :=
  if alive cp.childProcess then
    if now - cp.startTime < TIMEOUT then (TickAction.query, cp)
    else (TickAction.killTimeout, { cp with isTimedOut := true })
  else (TickAction.skip, cp)

/-- How `pidUsageCallback` disposed of one query result. -/
inductive UsageOutcome
  | ignored
  | fatalKill
  | sampled
deriving DecidableEq

/-- The state after one run of `pidUsageCallback`. -/
structure UsageResult where
  outcome : UsageOutcome
  p : Process
  registry : List Process
deriving DecidableEq

/-- `pidUsageCallback` (src/core/process.js lines 84-103): return at once if
the liveness predicate fails; on a query error kill the process and splice
it out of the registry by pid (no sample, no record); otherwise push the
reduced (cpu, mem) pair onto the process's sample sequences. The pair is
the result of the external `processPidusageStats` reducer. -/
def pidUsageCallback (alive : ChildProcess → Bool) (err : Option String)
    (sample : ℚ × ℚ) (p : Process) (registry : List Process) : UsageResult :=
  if !alive p.childProcess then ⟨UsageOutcome.ignored, p, registry⟩
  else if err.isSome then
    ⟨UsageOutcome.fatalKill, p,
      jsSplice1 registry (jsFindIndexPid registry p.childProcess.pid)⟩
  else
    ⟨UsageOutcome.sampled,
      { p with
          cpuVals := p.cpuVals ++ [sample.1]
          memVals := p.memVals ++ [sample.2] },
      registry⟩

/-- The `.catch` attached to the `pidusageTree` promise
(src/core/process.js lines 168-172): it only decides whether to warn —
exactly when zero samples were accumulated — and leaves the process and
the registry untouched. -/
def monitorCatch (cp : Process) (registry : List Process) :
    Bool × Process × List Process :=
  (cp.cpuVals.length + cp.memVals.length == 0, cp, registry)

/-- An element popped by `jsPop` leaves a strictly shorter list. -/
theorem jsPop_length_lt {α : Type} {l : List α} {pr : α × List α}
    (h : jsPop l = some pr) : pr.2.length < l.length := by
  cases l with
  | nil => simp [jsPop] at h
  | cons x xs =>
    rw [jsPop, List.getLast?_eq_getLast (x :: xs) (by simp)] at h
    have hp := Option.some.inj h
    subst hp
    simp [List.length_dropLast]

/-- The full sequential run of one engine's queue, iterating the queue
advance of `handleExecFileResult` (src/core/process.js lines 149-153): each
completion handler pops `engine.testsQueue` with JavaScript `Array.pop` and
spawns the popped script, until the queue is empty, at which point the
engine-completion callback fires. Returns the scripts in spawn order and
the number of callback invocations. -/
def engineRun (q : List String) : List String × Nat :=
  match h : jsPop q with
  | none => ([], 1)
  | some (s, q') =>
    let r := engineRun q'
    (s :: r.1, r.2)
termination_by q.length
decreasing_by exact jsPop_length_lt h

/-- `jsPop` on a list with an explicit last element pops that element. -/
theorem jsPop_append_singleton (l : List α) (x : α) :
    jsPop (l ++ [x]) = some (x, l) := by
  rw [jsPop, List.getLast?_concat]
  simp [List.dropLast_concat]

/-- `jsPop` yields `none` exactly on the empty list. -/
theorem jsPop_eq_none_iff (l : List α) : jsPop l = none ↔ l = [] := by
  cases l with
  | nil => simp [jsPop]
  | cons x xs =>
    rw [jsPop, List.getLast?_eq_getLast (x :: xs) (by simp)]
    simp

/-- The seed of a max-fold bounds below its result. -/
theorem le_foldl_max_init (x : ℚ) (l : List ℚ) : x ≤ l.foldl max x := by
  induction l generalizing x with
  | nil => simp
  | cons a l ih => exact le_trans (le_max_left x a) (ih (max x a))

/-- Every list member bounds below the result of a max-fold. -/
theorem mem_le_foldl_max (x y : ℚ) (l : List ℚ) (hy : y ∈ l) :
    y ≤ l.foldl max x := by
  induction l generalizing x with
  | nil => cases hy
  | cons a l ih =>
    rcases List.mem_cons.mp hy with h1 | h1
    · subst h1
      exact le_trans (le_max_right x y) (le_foldl_max_init (max x y) l)
    · exact ih (max x a) h1

/-- A max-fold returns its seed or a list member. -/
theorem foldl_max_mem (x : ℚ) (l : List ℚ) : l.foldl max x = x ∨ l.foldl max x ∈ l := by
  induction l generalizing x with
  | nil => simp
  | cons a l ih =>
    rcases ih (max x a) with h | h
    · rcases max_choice x a with h2 | h2
      · left; rw [List.foldl_cons, h, h2]
      · right; rw [List.foldl_cons, h, h2]; exact List.mem_cons_self a l
    · right; exact List.mem_cons_of_mem a h

/-- The seed of a min-fold bounds above its result. -/
theorem foldl_min_init_le (x : ℚ) (l : List ℚ) : l.foldl min x ≤ x := by
  induction l generalizing x with
  | nil => simp
  | cons a l ih => exact le_trans (ih (min x a)) (min_le_left x a)

/-- The result of a min-fold bounds below every list member. -/
theorem foldl_min_le_mem (x y : ℚ) (l : List ℚ) (hy : y ∈ l) :
    l.foldl min x ≤ y := by
  induction l generalizing x with
  | nil => cases hy
  | cons a l ih =>
    rcases List.mem_cons.mp hy with h1 | h1
    · subst h1
      exact le_trans (foldl_min_init_le (min x y) l) (min_le_right x y)
    · exact ih (min x a) h1

/-- A min-fold returns its seed or a list member. -/
theorem foldl_min_mem (x : ℚ) (l : List ℚ) : l.foldl min x = x ∨ l.foldl min x ∈ l := by
  induction l generalizing x with
  | nil => simp
  | cons a l ih =>
    rcases ih (min x a) with h | h
    · rcases min_choice x a with h2 | h2
      · left; rw [List.foldl_cons, h, h2]
      · right; rw [List.foldl_cons, h, h2]; exact List.mem_cons_self a l
    · right; exact List.mem_cons_of_mem a h

/-- The value `v` is the result of a JavaScript `Math.max` over the
non-empty list `l`: a member of `l` that bounds every member above. -/
def IsJsMaxOf (v : JsNum) (l : List ℚ) : Prop :=
  match v with
  | JsNum.num m => m ∈ l ∧ ∀ y ∈ l, y ≤ m
  | _ => False

/-- The value `v` is the result of a JavaScript `Math.min` over the
non-empty list `l`: a member of `l` that bounds every member below. -/
def IsJsMinOf (v : JsNum) (l : List ℚ) : Prop :=
  match v with
  | JsNum.num m => m ∈ l ∧ ∀ y ∈ l, m ≤ y
  | _ => False

/-- On a non-empty list, `jsMax` returns the greatest element. -/
theorem isJsMaxOf_jsMax (c : ℚ) (cs : List ℚ) : IsJsMaxOf (jsMax (c :: cs)) (c :: cs) := by
  show (cs.foldl max c ∈ c :: cs) ∧ ∀ y ∈ c :: cs, y ≤ cs.foldl max c
  constructor
  · rcases foldl_max_mem c cs with h | h
    · rw [h]; exact List.mem_cons_self c cs
    · exact List.mem_cons_of_mem c h
  · intro y hy
    rcases List.mem_cons.mp hy with h | h
    · subst h; exact le_foldl_max_init y cs
    · exact mem_le_foldl_max c y cs h

/-- On a non-empty list, `jsMin` returns the least element. -/
theorem isJsMinOf_jsMin (c : ℚ) (cs : List ℚ) : IsJsMinOf (jsMin (c :: cs)) (c :: cs) := by
  show (cs.foldl min c ∈ c :: cs) ∧ ∀ y ∈ c :: cs, cs.foldl min c ≤ y
  constructor
  · rcases foldl_min_mem c cs with h | h
    · rw [h]; exact List.mem_cons_self c cs
    · exact List.mem_cons_of_mem c h
  · intro y hy
    rcases List.mem_cons.mp hy with h | h
    · subst h; exact foldl_min_init_le y cs
    · exact foldl_min_le_mem c y cs h

/-- `findIdxPidAux` finds the position of the first pid match. -/
theorem findIdxPidAux_append (l1 l2 : List Process) (p : Process)
    (h : ∀ q ∈ l1, q.childProcess.pid ≠ p.childProcess.pid) :
    findIdxPidAux p.childProcess.pid (l1 ++ p :: l2) = some l1.length := by
  induction l1 with
  | nil => simp [findIdxPidAux]
  | cons a l1 ih =>
    have ha : a.childProcess.pid ≠ p.childProcess.pid :=
      h a (List.mem_cons_self a l1)
    have hrest : ∀ q ∈ l1, q.childProcess.pid ≠ p.childProcess.pid :=
      fun q hq => h q (List.mem_cons_of_mem a hq)
    simp [findIdxPidAux, ha, ih hrest]

/-- On a registry whose most recent element is `p`, a completion-handler run
whose pass condition holds pops `p` and appends exactly the success record
for `p` to `testsPassed`, leaving `testsFailed` alone; the action follows
`jsPop` of the pending queue. -/
theorem handler_success (fc : ChildProcess → Bool)
    (pto : String → String → String → String) (now : ℚ)
    (engine : EngineInfo) (script : String) (err : Option EndResult)
    (stdout stderr : String) (rest : List Process) (p : Process)
    (h : (err.isNone && fc p.childProcess) = true) :
    ∃ hr, handleExecFileResult fc pto now engine script err stdout stderr
        (rest ++ [p]) = some hr
      ∧ hr.registry = rest
      ∧ hr.engine.testsPassed
          = engine.testsPassed ++ [successRecord pto engine.name script stdout stderr now p]
      ∧ hr.engine.testsFailed = engine.testsFailed
      ∧ hr.engine.name = engine.name
      ∧ (engine.testsQueue = [] →
          hr.action = AdvanceAction.callbackInvoked ∧ hr.engine.testsQueue = [])
      ∧ (∀ s q', jsPop engine.testsQueue = some (s, q') →
          hr.action = AdvanceAction.spawned s ∧ hr.engine.testsQueue = q') := by
  unfold handleExecFileResult
  rw [jsPop_append_singleton]
  simp only [h, if_true]
  cases hq : jsPop engine.testsQueue with
  | none =>
    refine ⟨_, rfl, rfl, ?_, ?_, ?_, ?_, ?_⟩ <;>
      simp [queueAdvance, hq]
  | some sq =>
    refine ⟨_, rfl, rfl, ?_, ?_, ?_, ?_, ?_⟩ <;>
      simp [queueAdvance, hq]
    · intro hqe
      unfold jsPop at hq
      rw [hqe] at hq
      simp at hq
    · intro s q' hs
      simp [hs]

/-- On a registry whose most recent element is `p`, a completion-handler run
whose pass condition fails pops `p` and appends exactly the failure record
for `p` to `testsFailed`, leaving `testsPassed` alone; the action follows
`jsPop` of the pending queue. -/
theorem handler_failure (fc : ChildProcess → Bool)
    (pto : String → String → String → String) (now : ℚ)
    (engine : EngineInfo) (script : String) (err : Option EndResult)
    (stdout stderr : String) (rest : List Process) (p : Process)
    (h : (err.isNone && fc p.childProcess) = false) :
    ∃ hr, handleExecFileResult fc pto now engine script err stdout stderr
        (rest ++ [p]) = some hr
      ∧ hr.registry = rest
      ∧ hr.engine.testsFailed
          = engine.testsFailed ++ [failureRecord script stdout stderr now p]
      ∧ hr.engine.testsPassed = engine.testsPassed
      ∧ hr.engine.name = engine.name
      ∧ (engine.testsQueue = [] →
          hr.action = AdvanceAction.callbackInvoked ∧ hr.engine.testsQueue = [])
      ∧ (∀ s q', jsPop engine.testsQueue = some (s, q') →
          hr.action = AdvanceAction.spawned s ∧ hr.engine.testsQueue = q') := by
  unfold handleExecFileResult
  rw [jsPop_append_singleton]
  simp only [h, if_false, Bool.false_eq_true]
  cases hq : jsPop engine.testsQueue with
  | none =>
    refine ⟨_, rfl, rfl, ?_, ?_, ?_, ?_, ?_⟩ <;>
      simp [queueAdvance, hq]
  | some sq =>
    refine ⟨_, rfl, rfl, ?_, ?_, ?_, ?_, ?_⟩ <;>
      simp [queueAdvance, hq]
    · intro hqe
      unfold jsPop at hq
      rw [hqe] at hq
      simp at hq
    · intro s q' hs
      simp [hs]

/-- `splice(idx, 1)` at a valid index removes exactly that element. -/
theorem jsSplice1_append (l1 l2 : List α) (p : α) :
    jsSplice1 (l1 ++ p :: l2) (l1.length : Int) = l1 ++ l2 := by
  have h0 : ¬((l1.length : Int) < 0) := by omega
  have hle : (l1.length : Int) ≤ ((l1 ++ p :: l2).length : Int) := by
    simp [List.length_append]
    omega
  simp only [jsSplice1, if_neg h0, min_eq_left hle]
  rw [show ((l1.length : Int)).toNat = l1.length by omega]
  have htake : (l1 ++ p :: l2).take l1.length = l1 := List.take_left l1 (p :: l2)
  have hdrop : (l1 ++ p :: l2).drop (l1.length + 1) = l2 := by
    rw [show l1 ++ p :: l2 = (l1 ++ [p]) ++ l2 by simp,
        show l1.length + 1 = (l1 ++ [p]).length by simp]
    exact List.drop_left (l1 ++ [p]) l2
  rw [htake, hdrop]


/-- Iterating JavaScript `Array.pop` over a queue consumes it back-to-front:
the spawn order is the REVERSE of the queueing order, and the
engine-completion callback fires exactly once, at the empty queue. -/
theorem engineRun_reverse (q : List String) : engineRun q = (q.reverse, 1) := by
  induction q using List.reverseRecOn with
  | nil => rw [engineRun]; rfl
  | append_singleton l x ih =>
    rw [engineRun, jsPop_append_singleton]
    simp [ih]

/-- A status string built with the "error " prefix is never "timeout". -/
theorem error_prefix_ne_timeout (s : String) : "error " ++ s ≠ "timeout" := by
  intro h
  have hd : 'e' :: 'r' :: 'r' :: 'o' :: 'r' :: ' ' :: s.data
      = ['t', 'i', 'm', 'e', 'o', 'u', 't'] := congrArg String.data h
  injection hd with h1 _
  exact absurd h1 (by decide)

/-- Identity instantiation of the external `parseTestOutput` collaborator,
used in concrete scenarios. -/
def idParse : String → String → String → String := fun _ _ s => s

/-- Engine fixture: engine "A" with an empty queue and no results yet. -/
def engA : EngineInfo :=
  { name := "A"
    path := "/engines/A"
    testsQueue := []
    testsPassed := []
    testsFailed := [] }

/-- Handle fixture: a process killed by SIGTERM. -/
def cpA : ChildProcess := { pid := 11, exitCode := none, signalCode := some "SIGTERM" }

/-- Managed-process fixture owned by engine "A", one sample pair recorded. -/
def pA : Process :=
  { script := "a.js"
    engine := "A"
    childProcess := cpA
    startTime := 0
    cpuVals := [1]
    memVals := [10]
    isTimedOut := false }

/-- Handle fixture: a process that exited with code 1. -/
def cpB : ChildProcess := { pid := 22, exitCode := some 1, signalCode := none }

/-- Managed-process fixture owned by engine "B", one sample pair recorded. -/
def pB : Process :=
  { script := "b.js"
    engine := "B"
    childProcess := cpB
    startTime := 0
    cpuVals := [2]
    memVals := [20]
    isTimedOut := false }

/-- Handle fixture: a clean code-0 exit with no terminating signal. -/
def cpT : ChildProcess := { pid := 33, exitCode := some 0, signalCode := none }

/-- Managed-process fixture whose `isTimedOut` flag was set by the Monitor
but whose process nevertheless exited with code 0. -/
def pT : Process :=
  { script := "t.js"
    engine := "A"
    childProcess := cpT
    startTime := 0
    cpuVals := [3]
    memVals := [30]
    isTimedOut := true }

/-- C3 (corrected): the pending-script queue is consumed LIFO, not FIFO —
on the queue ["a.js", "b.js"] (queued in that order) the scripts are
spawned in the order ["b.js", "a.js"], not the queueing order. -/
theorem c3_queue_order_counterexample :
    (engineRun ["a.js", "b.js"]).1 ≠ ["a.js", "b.js"]
    ∧ (engineRun ["a.js", "b.js"]).1 = ["b.js", "a.js"] := by
  rw [engineRun_reverse]
  exact ⟨by decide, rfl⟩

/-- C3 (amended): the engine's pending-script queue is consumed in LIFO
order — the scripts of a full sequential run are spawned in the REVERSE of
their queueing order, each taken from the queue only when a completion
handler runs (the chain of `engineRun`), and when the queue is empty at
completion-handler time the engine-completion callback is invoked exactly
once; in the completion handler itself, an empty queue yields the callback
action and a non-empty queue yields a spawn of the popped (last) script. -/
theorem c3_queue_lifo_and_callback_once :
    (∀ q : List String, engineRun q = (q.reverse, 1))
    ∧ (∀ (fc : ChildProcess → Bool) (pto : String → String → String → String)
        (now : ℚ) (engine : EngineInfo) (script : String)
        (err : Option EndResult) (stdout stderr : String)
        (rest : List Process) (p : Process),
        (engine.testsQueue = [] →
          ∃ hr, handleExecFileResult fc pto now engine script err stdout stderr
              (rest ++ [p]) = some hr
            ∧ hr.action = AdvanceAction.callbackInvoked)
        ∧ (∀ s q', jsPop engine.testsQueue = some (s, q') →
          ∃ hr, handleExecFileResult fc pto now engine script err stdout stderr
              (rest ++ [p]) = some hr
            ∧ hr.action = AdvanceAction.spawned s
            ∧ hr.engine.testsQueue = q')) := by
  refine ⟨engineRun_reverse, ?_⟩
  intro fc pto now engine script err stdout stderr rest p
  by_cases hc : (err.isNone && fc p.childProcess) = true
  · obtain ⟨hr, heq, _, _, _, _, hnil, hcons⟩ :=
      handler_success fc pto now engine script err stdout stderr rest p hc
    exact ⟨fun hq => ⟨hr, heq, (hnil hq).1⟩,
      fun s q' hq => ⟨hr, heq, (hcons s q' hq).1, (hcons s q' hq).2⟩⟩
  · obtain ⟨hr, heq, _, _, _, _, hnil, hcons⟩ :=
      handler_failure fc pto now engine script err stdout stderr rest p
        (by simpa using hc)
    exact ⟨fun hq => ⟨hr, heq, (hnil hq).1⟩,
      fun s q' hq => ⟨hr, heq, (hcons s q' hq).1, (hcons s q' hq).2⟩⟩

/-- C3 witness: the amended theorem evaluated on a concrete two-script
queue. -/
theorem c3_queue_lifo_witness :
    engineRun ["x.js", "y.js"] = (["y.js", "x.js"], 1) := by
  have h := c3_queue_lifo_and_callback_once.1 ["x.js", "y.js"]
  simpa using h

/-- C6 (confirmed): on a monitor tick, a process whose liveness predicate
reports it gone gets neither a sample nor a timeout check; a live process
whose elapsed time has reached or exceeded TIMEOUT is sent the kill and its
`timedOut` flag is set, with no usage query issued that tick; and a usage
query is issued exactly when the process is live with elapsed time still
below TIMEOUT (the process state being left untouched in that case). -/
theorem c6_monitor_tick_discipline (alive : ChildProcess → Bool)
    (now TIMEOUT : ℚ) (cp : Process) :
    (alive cp.childProcess = false →
      monitorTick alive now TIMEOUT cp = (TickAction.skip, cp))
    ∧ (alive cp.childProcess = true → TIMEOUT ≤ now - cp.startTime →
      monitorTick alive now TIMEOUT cp
        = (TickAction.killTimeout, { cp with isTimedOut := true }))
    ∧ ((monitorTick alive now TIMEOUT cp).1 = TickAction.query ↔
      alive cp.childProcess = true ∧ now - cp.startTime < TIMEOUT)
    ∧ ((monitorTick alive now TIMEOUT cp).1 = TickAction.query →
      (monitorTick alive now TIMEOUT cp).2 = cp) := by
  refine ⟨?_, ?_, ?_, ?_⟩
  · intro hf
    simp [monitorTick, hf]
  · intro ha hle
    simp [monitorTick, ha, not_lt.mpr hle]
  · constructor
    · intro hq
      by_cases ha : alive cp.childProcess = true
      · by_cases ht : now - cp.startTime < TIMEOUT
        · exact ⟨ha, ht⟩
        · simp [monitorTick, ha, ht] at hq
      · have hfa : alive cp.childProcess = false := by simpa using ha
        simp [monitorTick, hfa] at hq
    · rintro ⟨ha, ht⟩
      simp [monitorTick, ha, ht]
  · intro hq
    by_cases ha : alive cp.childProcess = true
    · by_cases ht : now - cp.startTime < TIMEOUT
      · simp [monitorTick, ha, ht]
      · simp [monitorTick, ha, ht] at hq
    · have hfa : alive cp.childProcess = false := by simpa using ha
      simp [monitorTick, hfa] at hq

/-- C6 witness: the theorem applied to a dead process and to a live
timed-out process, at concrete values. -/
theorem c6_monitor_tick_witness :
    monitorTick (fun _ => false) 10 5 pA = (TickAction.skip, pA)
    ∧ monitorTick (fun _ => true) 10 5 pA
        = (TickAction.killTimeout, { pA with isTimedOut := true }) :=
  ⟨(c6_monitor_tick_discipline (fun _ => false) 10 5 pA).1 rfl,
    (c6_monitor_tick_discipline (fun _ => true) 10 5 pA).2.1 rfl (by norm_num [pA])⟩

/-- C7 (confirmed): a usage-query error for a process that still exists is
fatal for that process — `pidUsageCallback` kills it and splices it out of
the registry at once, with no sample appended and no record produced
(the engine is never touched on this path); the promise `.catch` of the
monitor, by contrast, only emits a warning — exactly when zero samples were
accumulated — and never kills or removes anything. -/
theorem c7_query_error_fatal_vs_warning (alive : ChildProcess → Bool)
    (e : String) (sample : ℚ × ℚ) (p : Process) (l1 l2 : List Process)
    (cp : Process) (reg : List Process)
    (halive : alive p.childProcess = true)
    (hfresh : ∀ q ∈ l1, q.childProcess.pid ≠ p.childProcess.pid) :
    pidUsageCallback alive (some e) sample p (l1 ++ p :: l2)
        = ⟨UsageOutcome.fatalKill, p, l1 ++ l2⟩
    ∧ (monitorCatch cp reg).2.1 = cp
    ∧ (monitorCatch cp reg).2.2 = reg
    ∧ ((monitorCatch cp reg).1 = true ↔ cp.cpuVals = [] ∧ cp.memVals = []) := by
  refine ⟨?_, rfl, rfl, ?_⟩
  · have hidx : jsFindIndexPid (l1 ++ p :: l2) p.childProcess.pid
        = (l1.length : Int) := by
      unfold jsFindIndexPid
      rw [findIdxPidAux_append l1 l2 p hfresh]
    unfold pidUsageCallback
    rw [halive]
    simp [hidx, jsSplice1_append l1 l2 p]
  · simp [monitorCatch, Nat.add_eq_zero, List.length_eq_zero]

/-- C7 witness: the theorem at a registry holding engine B's process ahead
of the erroring process `pA`, and the catch path on `pA` (which has a
sample, so no warning). -/
theorem c7_query_error_witness :
    pidUsageCallback (fun _ => true) (some "query failed") (0, 0) pA
        ([pB] ++ pA :: [])
        = ⟨UsageOutcome.fatalKill, pA, [pB] ++ []⟩
    ∧ (monitorCatch pA []).2.1 = pA
    ∧ (monitorCatch pA []).2.2 = []
    ∧ ((monitorCatch pA []).1 = true ↔ pA.cpuVals = [] ∧ pA.memVals = []) :=
  c7_query_error_fatal_vs_warning (fun _ => true) "query failed" (0, 0) pA
    [pB] [] pA [] rfl (by decide)

/-- C8 (confirmed): the stats block of every record the completion handler
builds is `mkStats` of the popped process's own sample sequences; with at
least one sample, maxCPU/minCPU (resp. maxMem/minMem) are the greatest and
least cpu (resp. mem) samples; with zero samples they take the
deterministic sentinels `-Infinity` (for max) and `+Infinity` (for min)
that JavaScript's `Math.max`/`Math.min` produce on an empty argument list;
and the cpu and mem sequences always have equal length — they start empty
together at `createProcess` and `pidUsageCallback` pushes onto both at
once. -/
theorem c8_stats_min_max (c d : ℚ) (cs ds : List ℚ)
    (alive : ChildProcess → Bool) (err : Option String) (sample : ℚ × ℚ)
    (preg : Process) (reg : List Process) (engine : EngineInfo)
    (script : String) (cp : ChildProcess) (now : ℚ)
    (pto : String → String → String → String) (stdout stderr : String)
    (p : Process)
    (hlen : preg.cpuVals.length = preg.memVals.length) :
    IsJsMaxOf (mkStats (c :: cs) (d :: ds)).maxCPU (c :: cs)
    ∧ IsJsMinOf (mkStats (c :: cs) (d :: ds)).minCPU (c :: cs)
    ∧ IsJsMaxOf (mkStats (c :: cs) (d :: ds)).maxMem (d :: ds)
    ∧ IsJsMinOf (mkStats (c :: cs) (d :: ds)).minMem (d :: ds)
    ∧ (mkStats [] []).maxCPU = JsNum.negInf
    ∧ (mkStats [] []).minCPU = JsNum.posInf
    ∧ (mkStats [] []).maxMem = JsNum.negInf
    ∧ (mkStats [] []).minMem = JsNum.posInf
    ∧ (pidUsageCallback alive err sample preg reg).p.cpuVals.length
        = (pidUsageCallback alive err sample preg reg).p.memVals.length
    ∧ (createProcess engine script cp now reg).1.cpuVals.length
        = (createProcess engine script cp now reg).1.memVals.length
    ∧ (successRecord pto engine.name script stdout stderr now p).stats
        = mkStats p.cpuVals p.memVals
    ∧ (failureRecord script stdout stderr now p).stats
        = mkStats p.cpuVals p.memVals := by
  refine ⟨isJsMaxOf_jsMax c cs, isJsMinOf_jsMin c cs, isJsMaxOf_jsMax d ds,
    isJsMinOf_jsMin d ds, rfl, rfl, rfl, rfl, ?_, rfl, rfl, rfl⟩
  unfold pidUsageCallback
  by_cases ha : alive preg.childProcess <;> by_cases he : err.isSome <;>
    simp [ha, he, hlen]

/-- C8 witness: the theorem evaluated at concrete sample lists and at the
fixture process `pA`. -/
theorem c8_stats_min_max_witness :
    IsJsMaxOf (mkStats [1, 2] [10, 20]).maxCPU [1, 2]
    ∧ (mkStats ([] : List ℚ) []).maxCPU = JsNum.negInf
    ∧ (pidUsageCallback (fun _ => true) none (5, 50) pA []).p.cpuVals.length
        = (pidUsageCallback (fun _ => true) none (5, 50) pA []).p.memVals.length := by
  have h := c8_stats_min_max 1 10 [2] [20] (fun _ => true) none (5, 50) pA []
      engA "a.js" cpA 0 idParse "" "" pA rfl
  exact ⟨h.1, h.2.2.2.2.1, h.2.2.2.2.2.2.2.2.1⟩

/-- Every completion-handler run on a non-empty registry appends exactly
one record in total, to exactly one of the two result lists, and pops the
most recently registered process. -/
theorem handler_total_length (fc : ChildProcess → Bool)
    (pto : String → String → String → String) (now : ℚ)
    (engine : EngineInfo) (script : String) (err : Option EndResult)
    (stdout stderr : String) (rest : List Process) (p : Process) :
    ∃ hr, handleExecFileResult fc pto now engine script err stdout stderr
        (rest ++ [p]) = some hr
      ∧ hr.registry = rest
      ∧ hr.engine.testsPassed.length + hr.engine.testsFailed.length
          = engine.testsPassed.length + engine.testsFailed.length + 1
      ∧ (hr.engine.testsPassed = engine.testsPassed
          ∨ hr.engine.testsFailed = engine.testsFailed) := by
  by_cases hc : (err.isNone && fc p.childProcess) = true
  · obtain ⟨hr, heq, hreg, hp, hf, _, _, _⟩ :=
      handler_success fc pto now engine script err stdout stderr rest p hc
    refine ⟨hr, heq, hreg, ?_, Or.inr hf⟩
    rw [hp, hf]
    simp [List.length_append]
    omega
  · obtain ⟨hr, heq, hreg, hf, hp, _, _, _⟩ :=
      handler_failure fc pto now engine script err stdout stderr rest p
        (by simpa using hc)
    refine ⟨hr, heq, hreg, ?_, Or.inl hp⟩
    rw [hp, hf]
    simp [List.length_append]
    omega

/-- C1 (corrected): with engine A's process `pA` and engine B's process
`pB` live concurrently (`pB` registered more recently), the completion
handler invoked for engine A pops `pB` — a process of a DIFFERENT engine —
and computes the record's min/max stats from `pB`'s samples (maxCPU 2),
not from engine A's own process (whose only cpu sample is 1). -/
theorem c1_cross_engine_pop_counterexample :
    (handleExecFileResult checkIfProcessFinishedCorrectly idParse 5 engA
        "a.js" (some { code := none, signal := some "SIGTERM", error := none })
        "out" "" [pA, pB]).map
      (fun r => (r.registry, r.engine.testsFailed.map (fun t => t.stats.maxCPU)))
      = some ([pA], [JsNum.num 2])
    ∧ pA.engine = engA.name
    ∧ pB.engine ≠ engA.name
    ∧ jsMax pA.cpuVals = JsNum.num 1
    ∧ JsNum.num (2 : ℚ) ≠ JsNum.num 1 := by decide

/-- C1 (amended): the completion handler pops the most recently registered
process of the GLOBAL registry, whatever engine it belongs to, and the
appended record's stats are `mkStats` of that popped process's own sample
sequences; consequently the claimed per-engine attribution holds exactly
when the globally most recent process is the ended engine's own — e.g.
whenever only one engine has a live process. -/
theorem c1_global_pop_stats (fc : ChildProcess → Bool)
    (pto : String → String → String → String) (now : ℚ)
    (engine : EngineInfo) (script : String) (err : Option EndResult)
    (stdout stderr : String) (rest : List Process) (p : Process) :
    ∃ hr, handleExecFileResult fc pto now engine script err stdout stderr
        (rest ++ [p]) = some hr
      ∧ hr.registry = rest
      ∧ ((hr.engine.testsPassed = engine.testsPassed
            ++ [successRecord pto engine.name script stdout stderr now p]
          ∧ hr.engine.testsFailed = engine.testsFailed)
        ∨ (hr.engine.testsFailed = engine.testsFailed
            ++ [failureRecord script stdout stderr now p]
          ∧ hr.engine.testsPassed = engine.testsPassed))
      ∧ (successRecord pto engine.name script stdout stderr now p).stats
          = mkStats p.cpuVals p.memVals
      ∧ (failureRecord script stdout stderr now p).stats
          = mkStats p.cpuVals p.memVals := by
  by_cases hc : (err.isNone && fc p.childProcess) = true
  · obtain ⟨hr, heq, hreg, hp, hf, _, _, _⟩ :=
      handler_success fc pto now engine script err stdout stderr rest p hc
    exact ⟨hr, heq, hreg, Or.inl ⟨hp, hf⟩, rfl, rfl⟩
  · obtain ⟨hr, heq, hreg, hf, hp, _, _, _⟩ :=
      handler_failure fc pto now engine script err stdout stderr rest p
        (by simpa using hc)
    exact ⟨hr, heq, hreg, Or.inr ⟨hf, hp⟩, rfl, rfl⟩

/-- C2 (corrected): a child process for which BOTH an `error` event and a
`close` event fire gets TWO failure records appended for its engine — one
per completion-handler invocation — refuting "never two". -/
theorem c2_double_event_counterexample :
    (dispatchEvents checkIfProcessFinishedCorrectly idParse 7 "a.js" "" ""
        [ChildEvent.error "spawn failure", ChildEvent.close (some 1) none]
        engA [pA, pB]).map
      (fun r => (r.1.testsPassed.length, r.1.testsFailed.length))
      = some (0, 2) := by decide

/-- C2 (amended): each completion-handler invocation on a non-empty
registry appends exactly one Test Result Record to exactly one of
`testsPassed`/`testsFailed` — never zero, never two; but each terminal
event (`close` or `error`) triggers its own invocation, so a process for
which both events fire yields two appended records (one per event), the
second drawn from whatever process is then most recent in the registry. -/
theorem c2_one_record_per_invocation (fc : ChildProcess → Bool)
    (pto : String → String → String → String) (now : ℚ)
    (engine : EngineInfo) (script : String) (err : Option EndResult)
    (stdout stderr : String) (rest : List Process) (p p2 : Process)
    (ev1 ev2 : ChildEvent) :
    (∃ hr, handleExecFileResult fc pto now engine script err stdout stderr
        (rest ++ [p]) = some hr
      ∧ hr.engine.testsPassed.length + hr.engine.testsFailed.length
          = engine.testsPassed.length + engine.testsFailed.length + 1
      ∧ (hr.engine.testsPassed = engine.testsPassed
          ∨ hr.engine.testsFailed = engine.testsFailed))
    ∧ (∃ er, dispatchEvents fc pto now script stdout stderr [ev1, ev2]
        engine ((rest ++ [p2]) ++ [p]) = some er
      ∧ er.1.testsPassed.length + er.1.testsFailed.length
          = engine.testsPassed.length + engine.testsFailed.length + 2) := by
  constructor
  · obtain ⟨hr, heq, _, hlen, hone⟩ :=
      handler_total_length fc pto now engine script err stdout stderr rest p
    exact ⟨hr, heq, hlen, hone⟩
  · obtain ⟨hr1, heq1, hreg1, hlen1, _⟩ :=
      handler_total_length fc pto now engine script (endResultOfEvent ev1)
        stdout stderr (rest ++ [p2]) p
    obtain ⟨hr2, heq2, hreg2, hlen2, _⟩ :=
      handler_total_length fc pto now hr1.engine script (endResultOfEvent ev2)
        stdout stderr rest p2
    refine ⟨(hr2.engine, hr2.registry), ?_, ?_⟩
    · simp only [dispatchEvents, dispatchEvent]
      rw [heq1]
      simp only []
      rw [hreg1, heq2]
    · show hr2.engine.testsPassed.length + hr2.engine.testsFailed.length = _
      omega

/-- C4 (corrected): a process whose `timedOut` flag was set by the Monitor
but which nevertheless exited with code 0 (so the uniform end result of its
`close` event is null) and whose handle satisfies the verdict predicate IS
recorded as a success — the success branch never consults the flag — so
"never recorded as success" fails. -/
theorem c4_timeout_then_success_counterexample :
    pT.isTimedOut = true
    ∧ (handleExecFileResult checkIfProcessFinishedCorrectly idParse 9 engA
        "t.js" (endResultOfEvent (ChildEvent.close (some 0) none)) "out" ""
        [pT]).map
      (fun r => (r.engine.testsPassed.map TestRecord.status,
        r.engine.testsFailed.length))
      = some (["success"], 0) := by decide

/-- C4 (amended): among FAILING records the claim holds — status is
"timeout" exactly when the process's `timedOut` flag was set, otherwise
"error " followed by the code-or-signal rendering, and stdout is flattened
by replacing newlines with spaces; but a timed-out process is kept from a
success record only by the pass condition: if its end result is null (code
0 exit) and the verdict predicate accepts its handle, it is recorded as a
success despite the flag. -/
theorem c4_failure_status_discipline (fc : ChildProcess → Bool)
    (pto : String → String → String → String) (now : ℚ)
    (engine : EngineInfo) (script : String) (err : Option EndResult)
    (stdout stderr : String) (rest : List Process) (p : Process) :
    ((err.isNone && fc p.childProcess) = false →
      ∃ hr, handleExecFileResult fc pto now engine script err stdout stderr
          (rest ++ [p]) = some hr
        ∧ hr.engine.testsFailed
            = engine.testsFailed ++ [failureRecord script stdout stderr now p]
        ∧ ((failureRecord script stdout stderr now p).status = "timeout"
            ↔ p.isTimedOut = true)
        ∧ (p.isTimedOut = false →
            (failureRecord script stdout stderr now p).status
              = "error " ++ statusCodeOrSignal p.childProcess)
        ∧ (failureRecord script stdout stderr now p).stdout
            = flattenNewlines stdout)
    ∧ ((err.isNone && fc p.childProcess) = true →
      ∃ hr, handleExecFileResult fc pto now engine script err stdout stderr
          (rest ++ [p]) = some hr
        ∧ hr.engine.testsPassed
            = engine.testsPassed
              ++ [successRecord pto engine.name script stdout stderr now p]
        ∧ (successRecord pto engine.name script stdout stderr now p).status
            = "success") := by
  constructor
  · intro hc
    obtain ⟨hr, heq, _, hf, _, _, _, _⟩ :=
      handler_failure fc pto now engine script err stdout stderr rest p hc
    refine ⟨hr, heq, hf, ?_, ?_, rfl⟩
    · cases hts : p.isTimedOut with
      | true => simp [failureRecord, hts]
      | false => simp [failureRecord, hts, error_prefix_ne_timeout]
    · intro hts
      simp [failureRecord, hts]
  · intro hc
    obtain ⟨hr, heq, _, hp, _, _, _, _⟩ :=
      handler_success fc pto now engine script err stdout stderr rest p hc
    exact ⟨hr, heq, hp, rfl⟩

/-- C4 witness: the failure side of the amended theorem at the
never-passing verdict, on engine B's process fixture. -/
theorem c4_failure_status_witness :
    ∃ hr, handleExecFileResult (fun _ => false) idParse 3 engA "b.js" none
        "x\ny" "" ([] ++ [pB]) = some hr
      ∧ hr.engine.testsFailed
          = engA.testsFailed ++ [failureRecord "b.js" "x\ny" "" 3 pB]
      ∧ ((failureRecord "b.js" "x\ny" "" 3 pB).status = "timeout"
          ↔ pB.isTimedOut = true)
      ∧ (pB.isTimedOut = false →
          (failureRecord "b.js" "x\ny" "" 3 pB).status
            = "error " ++ statusCodeOrSignal pB.childProcess)
      ∧ (failureRecord "b.js" "x\ny" "" 3 pB).stdout = flattenNewlines "x\ny" :=
  (c4_failure_status_discipline (fun _ => false) idParse 3 engA "b.js" none
    "x\ny" "" [] pB).1 rfl

/-- C5 (confirmed): the uniform end result handed to the completion handler
is null exactly when the `close` event carried exit code 0 (an `error`
event always carries a non-null end result), and a run of the handler
appends a "success" record with parser-processed stdout to `testsPassed`
when the end result is null AND the verdict predicate accepts the popped
process's handle; every other combination appends a failure record to
`testsFailed` instead. -/
theorem c5_pass_iff_null_end_and_verdict (fc : ChildProcess → Bool)
    (pto : String → String → String → String) (now : ℚ)
    (engine : EngineInfo) (script : String) (err : Option EndResult)
    (stdout stderr : String) (rest : List Process) (p : Process) :
    (∀ code signal,
      endResultOfEvent (ChildEvent.close code signal) = none ↔ code = some 0)
    ∧ (∀ e, endResultOfEvent (ChildEvent.error e) ≠ none)
    ∧ ((err = none ∧ fc p.childProcess = true) →
      ∃ hr, handleExecFileResult fc pto now engine script err stdout stderr
          (rest ++ [p]) = some hr
        ∧ hr.engine.testsPassed
            = engine.testsPassed
              ++ [successRecord pto engine.name script stdout stderr now p]
        ∧ hr.engine.testsFailed = engine.testsFailed
        ∧ (successRecord pto engine.name script stdout stderr now p).status
            = "success"
        ∧ (successRecord pto engine.name script stdout stderr now p).stdout
            = pto engine.name script stdout)
    ∧ (¬(err = none ∧ fc p.childProcess = true) →
      ∃ hr, handleExecFileResult fc pto now engine script err stdout stderr
          (rest ++ [p]) = some hr
        ∧ hr.engine.testsFailed
            = engine.testsFailed ++ [failureRecord script stdout stderr now p]
        ∧ hr.engine.testsPassed = engine.testsPassed) := by
  refine ⟨?_, ?_, ?_, ?_⟩
  · intro code signal
    unfold endResultOfEvent
    dsimp only
    split_ifs with h
    · simp [h]
    · simp [h]
  · intro e
    simp [endResultOfEvent]
  · rintro ⟨he, hfc⟩
    have hc : (err.isNone && fc p.childProcess) = true := by simp [he, hfc]
    obtain ⟨hr, heq, _, hp, hf, _, _, _⟩ :=
      handler_success fc pto now engine script err stdout stderr rest p hc
    exact ⟨hr, heq, hp, hf, rfl, rfl⟩
  · intro hn
    have hc : (err.isNone && fc p.childProcess) = false := by
      by_cases he : err = none
      · have hfc : fc p.childProcess = false := by
          cases hfc : fc p.childProcess
          · rfl
          · exact absurd ⟨he, hfc⟩ hn
        simp [he, hfc]
      · simp [Option.isNone_iff_eq_none, he]
    obtain ⟨hr, heq, _, hf, hp, _, _, _⟩ :=
      handler_failure fc pto now engine script err stdout stderr rest p hc
    exact ⟨hr, heq, hf, hp⟩

/-- C5 witness: the pass side of the theorem on engine A's process fixture
with a null end result and an always-accepting verdict predicate. -/
theorem c5_pass_witness :
    ∃ hr, handleExecFileResult (fun _ => true) idParse 2 engA "a.js" none
        "ok" "" ([] ++ [pA]) = some hr
      ∧ hr.engine.testsPassed
          = engA.testsPassed ++ [successRecord idParse engA.name "a.js" "ok" "" 2 pA]
      ∧ hr.engine.testsFailed = engA.testsFailed
      ∧ (successRecord idParse engA.name "a.js" "ok" "" 2 pA).status = "success"
      ∧ (successRecord idParse engA.name "a.js" "ok" "" 2 pA).stdout
          = idParse engA.name "a.js" "ok" :=
  (c5_pass_iff_null_end_and_verdict (fun _ => true) idParse 2 engA "a.js"
    none "ok" "" [] pA).2.2.1 ⟨rfl, rfl⟩

/-- C9 (corrected): the completion handler does NOT tolerate being invoked
for a process already removed from the registry: on an empty registry it
crashes (pop yields undefined and the immediate field access throws,
modelled by `none`), and on a non-empty registry it pops — and computes the
record from — whatever process is most recent, here engine B's live
process `pB`, which did not end, removing it from the registry. -/
theorem c9_removed_process_counterexample :
    handleExecFileResult checkIfProcessFinishedCorrectly idParse 4 engA
        "a.js" none "" "" [] = none
    ∧ (handleExecFileResult checkIfProcessFinishedCorrectly idParse 4 engA
        "a.js" (some { code := none, signal := none, error := some "x" })
        "" "" [pB]).map (fun r => r.registry)
      = some [] := by decide

/-- C9 (amended): the completion handler has no guard for a
previously-removed process: it crashes exactly when the registry is empty,
and on any non-empty registry it unconditionally pops the most recently
registered process — whether or not that process is the one that ended. -/
theorem c9_handler_no_removal_guard (fc : ChildProcess → Bool)
    (pto : String → String → String → String) (now : ℚ)
    (engine : EngineInfo) (script : String) (err : Option EndResult)
    (stdout stderr : String) :
    (∀ registry,
      handleExecFileResult fc pto now engine script err stdout stderr registry
        = none ↔ registry = [])
    ∧ (∀ rest p, ∃ hr,
      handleExecFileResult fc pto now engine script err stdout stderr
        (rest ++ [p]) = some hr ∧ hr.registry = rest) := by
  constructor
  · intro registry
    constructor
    · intro hn
      cases hreg : jsPop registry with
      | none => exact (jsPop_eq_none_iff registry).mp hreg
      | some pr =>
        obtain ⟨pp, rr⟩ := pr
        unfold handleExecFileResult at hn
        rw [hreg] at hn
        simp at hn
    · intro h
      subst h
      rfl
  · intro rest p
    by_cases hc : (err.isNone && fc p.childProcess) = true
    · obtain ⟨hr, heq, hreg, _, _, _, _, _⟩ :=
        handler_success fc pto now engine script err stdout stderr rest p hc
      exact ⟨hr, heq, hreg⟩
    · obtain ⟨hr, heq, hreg, _, _, _, _, _⟩ :=
        handler_failure fc pto now engine script err stdout stderr rest p
          (by simpa using hc)
      exact ⟨hr, heq, hreg⟩

/-- Managed-process fixture with a clean code-0 handle, a failing verdict
scenario in mind, and the timeout flag clear. -/
def pF : Process :=
  { script := "f.js"
    engine := "A"
    childProcess := cpT
    startTime := 0
    cpuVals := []
    memVals := []
    isTimedOut := false }

/-- C10 (confirmed): a failure record for a process whose flag is clear has
status "error " followed by the JavaScript `||` of the handle's exit code
and signal code — the exit code when it is truthy (non-null, non-zero),
else the signal code: so a non-zero code c gives "error c", a signal
fallback gives "error <signal>", and the falsy exit code 0 together with a
null signal code gives exactly "error null". -/
theorem c10_falsy_code_error_null (fc : ChildProcess → Bool)
    (pto : String → String → String → String) (now : ℚ)
    (engine : EngineInfo) (script : String) (err : Option EndResult)
    (stdout stderr : String) (rest : List Process) (p : Process)
    (hflag : p.isTimedOut = false)
    (hfail : (err.isNone && fc p.childProcess) = false) :
    ∃ hr, handleExecFileResult fc pto now engine script err stdout stderr
        (rest ++ [p]) = some hr
      ∧ hr.engine.testsFailed
          = engine.testsFailed ++ [failureRecord script stdout stderr now p]
      ∧ (failureRecord script stdout stderr now p).status
          = "error " ++ statusCodeOrSignal p.childProcess
      ∧ (∀ c, p.childProcess.exitCode = some c → c ≠ 0 →
          statusCodeOrSignal p.childProcess = toString c)
      ∧ (∀ s, p.childProcess.signalCode = some s →
          (p.childProcess.exitCode = some 0 ∨ p.childProcess.exitCode = none) →
          statusCodeOrSignal p.childProcess = s)
      ∧ (p.childProcess.exitCode = some 0 → p.childProcess.signalCode = none →
          (failureRecord script stdout stderr now p).status = "error null") := by
  obtain ⟨hr, heq, _, hf, _, _, _, _⟩ :=
    handler_failure fc pto now engine script err stdout stderr rest p hfail
  refine ⟨hr, heq, hf, ?_, ?_, ?_, ?_⟩
  · simp [failureRecord, hflag]
  · intro c hc hc0
    simp [statusCodeOrSignal, hc, hc0]
  · intro s hs hor
    rcases hor with h0 | h0 <;> simp [statusCodeOrSignal, h0, hs]
  · intro h0 hsn
    have hnull : statusCodeOrSignal p.childProcess = "null" := by
      simp [statusCodeOrSignal, h0, hsn]
    simp [failureRecord, hflag, hnull]

/-- C10 witness: the theorem at the fixture `pF`, whose handle exited with
code 0 (falsy) and has a null signal code, under a rejecting verdict: its
failure status is exactly "error null". -/
theorem c10_falsy_code_witness :
    ∃ hr, handleExecFileResult (fun _ => false) idParse 1 engA "f.js" none
        "" "" ([] ++ [pF]) = some hr
      ∧ hr.engine.testsFailed
          = engA.testsFailed ++ [failureRecord "f.js" "" "" 1 pF]
      ∧ (failureRecord "f.js" "" "" 1 pF).status
          = "error " ++ statusCodeOrSignal pF.childProcess
      ∧ (∀ c, pF.childProcess.exitCode = some c → c ≠ 0 →
          statusCodeOrSignal pF.childProcess = toString c)
      ∧ (∀ s, pF.childProcess.signalCode = some s →
          (pF.childProcess.exitCode = some 0 ∨ pF.childProcess.exitCode = none) →
          statusCodeOrSignal pF.childProcess = s)
      ∧ (pF.childProcess.exitCode = some 0 → pF.childProcess.signalCode = none →
          (failureRecord "f.js" "" "" 1 pF).status = "error null") :=
  c10_falsy_code_error_null (fun _ => false) idParse 1 engA "f.js" none ""
    "" [] pF rfl rfl
